import Mathlib

/-!
Shallow embedding of `src/app/src/main/cpp/whisper_jni.cpp`, the JNI bridge
between a managed runtime and the whisper speech-recognition engine.

The bridge code itself is the translation target; the whisper engine and the
Android/JNI platform services it calls are external collaborators.  They are
modelled abstractly: the engine is a structure of oracles (`WhisperEngine`),
an engine context is the data the bridge can observe of it (the segment texts
of the last transcription, a text being `none` when the engine hands back a
null pointer), and resource-lifecycle side effects (engine calls, file opens,
asset opens and closes, JNI array pinning) are recorded in an explicit event
trace returned alongside each result.

Machine integers (`jlong` handles, `jint` indices and counts, C `int` status
codes) are modelled as `Int`; audio samples (C `float`) as `ℚ`, which is exact
for the values the bridge produces (an int16 divided by 32768 is exactly
representable in binary32); file bytes as `Fin 256`.
-/

namespace WhisperJni

/-- JNI release modes for `ReleaseFloatArrayElements`: mode 0 and JNI_COMMIT
copy the native buffer back into the Java array, JNI_ABORT discards it. -/
inductive ReleaseMode where
  | copyBack
  | commit
  | abort
deriving DecidableEq, Repr

/-- Observable side effects of one bridge call, in program order: calls into
the whisper engine, C file opens, Android asset-manager operations, and JNI
float-array pinning and release. -/
inductive Event where
  | engineInitFromFile (path : String)
  | engineInitFromBuffer
  | engineFull
  | engineFree
  | engineNSegments
  | engineGetSegmentText
  | fileOpen (path : String)
  | assetOpen (path : String)
  | assetClose
  | getJavaArray
  | releaseJavaArray (mode : ReleaseMode)
deriving DecidableEq, Repr

/-- The sampling-strategy argument of `whisper_full_default_params`. -/
inductive SamplingStrategy where
  | greedy
  | beamSearch
deriving DecidableEq, Repr

/-- The fields of `whisper_full_params` that the bridge assigns, plus `rest`,
standing collectively for every other field of the C struct (thresholds, beam
width, callbacks, ...), which the bridge leaves at the engine default. -/
structure WhisperFullParams where
  strategy : SamplingStrategy
  print_progress : Bool
  print_special : Bool
  print_realtime : Bool
  print_timestamps : Bool
  translate : Bool
  language : String
  n_threads : Int
  offset_ms : Int
  duration_ms : Int
  single_segment : Bool
  max_tokens : Int
  audio_ctx : Int
  rest : Int
deriving DecidableEq, Repr

/-- Modelled from the spec: the engine state the bridge can observe through
`whisper_full_n_segments` and `whisper_full_get_segment_text` - the list of
segment texts produced by the last transcription call on this context.  An
entry `none` models the engine returning a null text pointer. -/
structure WhisperContext where
  segments : List (Option String)
deriving DecidableEq, Repr

/-- Modelled from the spec: the external whisper engine (declared in
`whisper.h`, not part of this repository), as the oracles the bridge calls.
`defaults` is the parameter struct produced by `whisper_full_default_params`
before its strategy argument is applied; `full` returns the C status code
together with the context state after the call; `initFromBuffer` receives the
asset bytes and length. -/
structure WhisperEngine where
  defaults : WhisperFullParams
  initFromFile : String → Option WhisperContext
  initFromBuffer : List (Fin 256) → Int → Option WhisperContext
  full : WhisperContext → WhisperFullParams → List ℚ → Int × WhisperContext

/-- Modelled from the spec: `whisper_full_default_params(s)` returns the
engine defaults with the requested sampling strategy. -/
def whisper_full_default_params (s : SamplingStrategy) (d : WhisperFullParams) :
    WhisperFullParams :=
  { d with strategy := s }

/-- Modelled from the spec: `whisper_full_n_segments` - the number of segments
of the last transcription call. -/
def whisper_full_n_segments (ctx : WhisperContext) : Int :=
  ctx.segments.length

/-- Modelled from the spec: `whisper_full_get_segment_text` - the text of
segment `i` of the last transcription call, a null pointer (`none`) when the
stored text pointer is null or the index is outside the segments of the last
transcription call. -/
def whisper_full_get_segment_text (ctx : WhisperContext) (i : Int) :
    Option String :=
  if 0 ≤ i ∧ i < (ctx.segments.length : Int) then
    (ctx.segments.get? i.toNat).join
  else
    none

/-- A file system for the C `fopen`/`fread` calls of `read_wav`: `none` means
the open fails, otherwise the full byte contents of the file. -/
def FileSystem : Type := String → Option (List (Fin 256))

/-- The signed 16-bit little-endian integer assembled from two bytes, as
`fread` into an `int16_t` does on a little-endian machine. -/
def sint16LE (lo hi : Fin 256) : Int :=
  let u : Nat := lo.val + 256 * hi.val
  if u < 32768 then (u : Int) else (u : Int) - 65536

/-- The `fread` loop of `read_wav`: consume consecutive byte pairs as signed
16-bit little-endian samples, each divided by 32768; a trailing lone byte
makes the final `fread` return 0, ending the loop. -/
def pcmSamples : List (Fin 256) → List ℚ
  | lo :: hi :: tail => (sint16LE lo hi : ℚ) / 32768 :: pcmSamples tail
  | _ => []

/-- `read_wav` from the source: open the file (empty result when the open
fails), seek past the first 44 bytes, then read int16 LE samples to
end-of-file, normalizing each by 32768.  Seeking a short file past its end
succeeds and the first read then hits end-of-file, so fewer than 44 bytes
yield the empty sequence. -/
def read_wav (fs : FileSystem) (fname : String) : List ℚ × List Event :=
  match fs fname with
  | none => ([], [.fileOpen fname])
  | some bytes => (pcmSamples (bytes.drop 44), [.fileOpen fname])

/-- The parameter struct built by the primary entry point
`Java_com_memexos_app_whisper_WhisperService_fullTranscribe`: engine defaults
for greedy sampling, then the field assignments of lines 171-182 of the
source, with the caller-supplied thread count. -/
def primaryParams (d : WhisperFullParams) (numThreads : Int) :
    WhisperFullParams :=
  let w := whisper_full_default_params .greedy d
  { w with
    print_progress := false
    print_special := false
    print_realtime := false
    print_timestamps := false
    translate := false
    language := "en"
    n_threads := numThreads
    offset_ms := 0
    duration_ms := 0
    single_segment := false
    max_tokens := 0
    audio_ctx := 0 }

/-- The parameter struct built by the legacy entry point
`Java_com_example_memexos_WhisperWrapper_nativeTranscribe`: engine defaults
for greedy sampling, then the field assignments of lines 264-275 of the
source, with the hard-coded thread count 4. -/
def legacyParams (d : WhisperFullParams) : WhisperFullParams :=
  let w := whisper_full_default_params .greedy d
  { w with
    print_progress := false
    print_special := false
    print_realtime := false
    print_timestamps := false
    translate := false
    language := "en"
    n_threads := 4
    offset_ms := 0
    duration_ms := 0
    single_segment := false
    max_tokens := 0
    audio_ctx := 0 }

/-- `ReleaseFloatArrayElements`: the Java array contents after releasing a
native copy `native` of an array whose contents were `orig`, for each release
mode. -/
def releaseFloatArrayElements (mode : ReleaseMode) (orig native : List ℚ) :
    List ℚ :=
  match mode with
  | .copyBack => native
  | .commit => native
  | .abort => orig

/-- `Java_com_memexos_app_whisper_WhisperService_freeContext`: free the
context unless the handle is the zero sentinel. -/
def freeContext (contextPtr : Int) : List Event :=
  if contextPtr ≠ 0 then [.engineFree] else []

/-- `Java_com_memexos_app_whisper_WhisperService_getTextSegmentCount`: 0 for
the zero handle, otherwise the engine segment count of the context the handle
points to. -/
def getTextSegmentCount (contextPtr : Int) (ctx : WhisperContext) :
    Int × List Event :=
  if contextPtr = 0 then (0, [])
  else (whisper_full_n_segments ctx, [.engineNSegments])

/-- `Java_com_memexos_app_whisper_WhisperService_getTextSegment`: the empty
string for the zero handle, otherwise the engine text for the index, with a
null pointer replaced by the empty string (`text ? text : ""`). -/
def getTextSegment (contextPtr : Int) (ctx : WhisperContext) (index : Int) :
    String × List Event :=
  if contextPtr = 0 then ("", [])
  else
    let text := whisper_full_get_segment_text ctx index
    (text.getD "", [.engineGetSegmentText])

/-- Result of the primary transcription entry point: the context state after
the call (the handle target), the Java audio array contents after the call,
and the event trace. -/
structure FullTranscribeResult where
  ctx : WhisperContext
  audio : List ℚ
  trace : List Event
deriving DecidableEq, Repr

/-- `Java_com_memexos_app_whisper_WhisperService_fullTranscribe`: return at
once for the zero handle; otherwise pin the Java float array, build the
primary parameter struct, run `whisper_full` (which takes the samples through
a pointer to const and so cannot write them), and release the array with
JNI_ABORT.  A nonzero engine status is only logged. -/
def fullTranscribe (E : WhisperEngine) (contextPtr : Int) (numThreads : Int)
    (audioData : List ℚ) (ctx : WhisperContext) : FullTranscribeResult :=
  if contextPtr = 0 then ⟨ctx, audioData, []⟩
  else
    let audio := audioData
    let wparams := primaryParams E.defaults numThreads
    let sc := E.full ctx wparams audio
    let audioAfter := releaseFloatArrayElements .abort audioData audio
    ⟨sc.2, audioAfter, [.getJavaArray, .engineFull, .releaseJavaArray .abort]⟩

/-- An opened Android asset as the bridge observes it: its length from
`AAsset_getLength` and its buffer from `AAsset_getBuffer` (`none` for a null
buffer pointer). -/
structure AAsset where
  length : Int
  buffer : Option (List (Fin 256))
deriving DecidableEq, Repr

/-- The native asset manager obtained from `AAssetManager_fromJava`: opening
an asset path yields `none` when the open fails. -/
structure AAssetManager where
  openAsset : String → Option AAsset

/-- `Java_com_memexos_app_whisper_WhisperService_initContextFromAsset`:
zero handle (`none`) when the native asset manager is null, the asset open
fails, the buffer pointer is null or the length is not positive, or the
engine buffer load fails; the asset is closed after the buffer check fails or
after the engine buffer load, before the null check on its result. -/
def initContextFromAsset (E : WhisperEngine) (mgr : Option AAssetManager)
    (assetPath : String) : Option WhisperContext × List Event :=
  match mgr with
  | none => (none, [])
  | some m =>
    match m.openAsset assetPath with
    | none => (none, [.assetOpen assetPath])
    | some asset =>
      match asset.buffer with
      | none => (none, [.assetOpen assetPath, .assetClose])
      | some buf =>
        if asset.length ≤ 0 then
          (none, [.assetOpen assetPath, .assetClose])
        else
          let ctx? := E.initFromBuffer buf asset.length
          (ctx?, [.assetOpen assetPath, .engineInitFromBuffer, .assetClose])

/-- The sentinel returned by the legacy path when the model fails to load. -/
def errModel : String := "Error: Failed to load model"

/-- The sentinel returned by the legacy path when the sample sequence read
from the audio file is empty. -/
def errAudio : String := "Error: Failed to read audio file"

/-- The sentinel returned by the legacy path when `whisper_full` returns a
nonzero status. -/
def errProcess : String := "Error: Failed to process audio"

/-- The stringstream loop of the legacy path, lines 289-296 of the source:
append each segment text, and a single space after every segment except the
last.  Streaming a null `char` pointer into a C++ stringstream is undefined
behavior; the model inserts the empty string there, and the theorems about
this loop assume every text pointer is non-null. -/
def joinSegments : List (Option String) → String
  | [] => ""
  | [t] => t.getD ""
  | t :: ts => t.getD "" ++ " " ++ joinSegments ts

/-- `Java_com_example_memexos_WhisperWrapper_nativeTranscribe`, the legacy
one-shot path: load the model (sentinel on failure, before touching the audio
file), read the audio (free the context and return the audio sentinel when
empty), run `whisper_full` with the legacy parameters (free the context and
return the processing sentinel on nonzero status), else join the segment
texts, free the context and return the transcript. -/
def nativeTranscribe (E : WhisperEngine) (fs : FileSystem)
    (audioPath modelPath : String) : String × List Event :=
  match E.initFromFile modelPath with
  | none => (errModel, [.engineInitFromFile modelPath])
  | some ctx =>
    let r := read_wav fs audioPath
    if r.1.isEmpty then
      (errAudio, .engineInitFromFile modelPath :: r.2 ++ [.engineFree])
    else
      let wparams := legacyParams E.defaults
      let sc := E.full ctx wparams r.1
      if sc.1 ≠ 0 then
        (errProcess,
          .engineInitFromFile modelPath :: r.2 ++ [.engineFull, .engineFree])
      else
        (joinSegments sc.2.segments,
          .engineInitFromFile modelPath :: r.2 ++ [.engineFull, .engineFree])

/-! ### UTF-8 marshalling model

`jstring2string` obtains the bytes of a Java string through
`String.getBytes` with charset name "UTF-8" and copies them into a
`std::string`; results travel back through `NewStringUTF`.  A Java string is
modelled as its list of Unicode code points, and the two platform services
(not part of this repository) as a UTF-8 encoder and decoder over `Nat`
code points and bytes. -/

/-- A Unicode scalar value: a code point below 0x110000 that is not a
UTF-16 surrogate.  Java `getBytes` encodes exactly these faithfully. -/
def UnicodeScalar (c : Nat) : Prop :=
  c < 0x110000 ∧ ¬(0xD800 ≤ c ∧ c < 0xE000)

instance (c : Nat) : Decidable (UnicodeScalar c) := by
  unfold UnicodeScalar; infer_instance

/-- The UTF-8 encoding of one code point: 1-4 bytes by range. -/
def utf8EncodeCodePoint (c : Nat) : List Nat :=
  if c < 0x80 then [c]
  else if c < 0x800 then [0xC0 + c / 64, 0x80 + c % 64]
  else if c < 0x10000 then [0xE0 + c / 4096, 0x80 + c / 64 % 64, 0x80 + c % 64]
  else [0xF0 + c / 262144, 0x80 + c / 4096 % 64, 0x80 + c / 64 % 64,
        0x80 + c % 64]

/-- The UTF-8 encoding of a code-point sequence. -/
def utf8Encode (cps : List Nat) : List Nat :=
  (cps.map utf8EncodeCodePoint).flatten

/-- A streaming UTF-8 decoder: `need` is the number of continuation bytes
still expected for the current character and `acc` the bits accumulated so
far.  Lead byte classes 0xxxxxxx, 110xxxxx, 1110xxxx, 11110xxx; each
continuation byte must be 10xxxxxx; `none` on malformed input.  Like the
Android runtime decoder behind `NewStringUTF`, it accepts four-byte
sequences (and does not reject overlong forms - it is lenient). -/
def utf8DecodeAux : Nat → Nat → List Nat → Option (List Nat)
  | 0, _, [] => some []
  | 0, _, b :: rest =>
    if b < 0x80 then (utf8DecodeAux 0 0 rest).map (b :: ·)
    else if b < 0xC0 then none
    else if b < 0xE0 then utf8DecodeAux 1 (b - 0xC0) rest
    else if b < 0xF0 then utf8DecodeAux 2 (b - 0xE0) rest
    else if b < 0xF8 then utf8DecodeAux 3 (b - 0xF0) rest
    else none
  | _ + 1, _, [] => none
  | need + 1, acc, b :: rest =>
    if 0x7F < b ∧ b < 0xC0 then
      match need with
      | 0 => (utf8DecodeAux 0 0 rest).map ((acc * 64 + (b - 0x80)) :: ·)
      | n + 1 => utf8DecodeAux (n + 1) (acc * 64 + (b - 0x80)) rest
    else none

/-- UTF-8 decoding of a whole byte list. -/
def utf8Decode (l : List Nat) : Option (List Nat) :=
  utf8DecodeAux 0 0 l

/-- Modelled from the spec: `jstring2string` from the source calls
`String.getBytes` with the explicit charset name "UTF-8" (never the platform
default) and copies the returned byte array into the `std::string` it
returns, so its value is the UTF-8 encoding of the code points of the Java
string argument. -/
def jstring2string (js : List Nat) : List Nat :=
  utf8Encode js

/-- Modelled from the spec: the outbound `NewStringUTF` platform call, which
on Android decodes the given bytes as UTF-8 (four-byte sequences included)
into a Java string; `none` models its behavior on malformed input. -/
def newStringUTF (bytes : List Nat) : Option (List Nat) :=
  utf8Decode bytes

/-! ### Concrete fixtures used by the witness theorems -/

/-- An arbitrary concrete engine-default parameter struct. -/
def testParams : WhisperFullParams :=
  ⟨.beamSearch, true, true, true, true, true, "xx", 9, 2, 3, true, 5, 6, 7⟩

/-- A freshly created context with no segments. -/
def testCtx : WhisperContext := ⟨[]⟩

/-- A context after a transcription producing two segments. -/
def testCtxDone : WhisperContext := ⟨[some "hello", some "world"]⟩

/-- A context whose second segment has a null text pointer. -/
def testCtxNull : WhisperContext := ⟨[some "hello", none]⟩

/-- A concrete engine: loads only "model.bin", every transcription succeeds
with two segments. -/
def testEngine : WhisperEngine where
  defaults := testParams
  initFromFile := fun p => if p = "model.bin" then some testCtx else none
  initFromBuffer := fun _ _ => some testCtx
  full := fun _ _ _ => (0, testCtxDone)

/-- A concrete engine whose transcription call always fails with status 1
and whose buffer load fails. -/
def failFullEngine : WhisperEngine where
  defaults := testParams
  initFromFile := fun p => if p = "model.bin" then some testCtx else none
  initFromBuffer := fun _ _ => none
  full := fun c _ _ => (1, c)

/-- A 48-byte file: a 44-byte header region and two int16 LE samples,
5 and -1. -/
def testBytes : List (Fin 256) :=
  List.replicate 44 0 ++ [5, 0, 255, 255]

/-- A file system holding only "a.wav" with contents `testBytes`. -/
def testFs : FileSystem :=
  fun p => if p = "a.wav" then some testBytes else none

/-- A file system on which every open fails. -/
def emptyFs : FileSystem :=
  fun _ => none

/-- An asset with a 4-byte buffer. -/
def testAssetOk : AAsset := ⟨4, some [1, 2, 3, 4]⟩

/-- An asset whose buffer pointer is null. -/
def testAssetBad : AAsset := ⟨0, none⟩

/-- An asset manager holding one good and one bad asset. -/
def testMgr : AAssetManager :=
  ⟨fun p =>
    if p = "good.bin" then some testAssetOk
    else if p = "bad.bin" then some testAssetBad
    else none⟩

/-! ### Helper lemmas -/

/-- `read_wav` opens exactly the requested file, whether or not the open
succeeds. -/
theorem read_wav_trace (fs : FileSystem) (fname : String) :
    (read_wav fs fname).2 = [.fileOpen fname] := by
  unfold read_wav
  cases fs fname <;> rfl

/-! ### C1: zero-handle entry points are benign -/

/-- C1: every handle-taking entry point called with the zero handle returns
its benign default with an empty event trace: `getTextSegmentCount` returns
0, `getTextSegment` returns the empty string, `freeContext` is a no-op, and
`fullTranscribe` returns with the context and the audio array unchanged,
without reading the array and without any engine call. -/
theorem zero_handle_benign (E : WhisperEngine) (ctx : WhisperContext)
    (index numThreads : Int) (audioData : List ℚ) :
    getTextSegmentCount 0 ctx = (0, []) ∧
    getTextSegment 0 ctx index = ("", []) ∧
    freeContext 0 = [] ∧
    fullTranscribe E 0 numThreads audioData ctx = ⟨ctx, audioData, []⟩ := by
  refine ⟨rfl, rfl, ?_, rfl⟩
  simp [freeContext]

/-! ### C2: segment-text query cases -/

/-- C2: `getTextSegment` returns the empty string when the handle is the
zero sentinel, when the index is out of range of the segments of the last
transcription, and when the engine hands back a null text pointer; otherwise
it returns the text of that segment. -/
theorem getTextSegment_cases (contextPtr : Int) (ctx : WhisperContext)
    (index : Int) :
    (contextPtr = 0 → getTextSegment contextPtr ctx index = ("", [])) ∧
    (contextPtr ≠ 0 → index < 0 ∨ (ctx.segments.length : Int) ≤ index →
      (getTextSegment contextPtr ctx index).1 = "") ∧
    (contextPtr ≠ 0 → 0 ≤ index → index < (ctx.segments.length : Int) →
      ctx.segments.get? index.toNat = some none →
      (getTextSegment contextPtr ctx index).1 = "") ∧
    (∀ t, contextPtr ≠ 0 → 0 ≤ index → index < (ctx.segments.length : Int) →
      ctx.segments.get? index.toNat = some (some t) →
      (getTextSegment contextPtr ctx index).1 = t) := by
  refine ⟨?_, ?_, ?_, ?_⟩
  · intro h
    simp [getTextSegment, h]
  · intro h hrange
    have hcond : ¬(0 ≤ index ∧ index < (ctx.segments.length : Int)) := by
      omega
    simp [getTextSegment, h, whisper_full_get_segment_text, hcond]
  · intro h h0 hlt hseg
    have hc : 0 ≤ index ∧ index < (ctx.segments.length : Int) := ⟨h0, hlt⟩
    simp only [getTextSegment, whisper_full_get_segment_text, if_neg h,
      if_pos hc, hseg]
    rfl
  · intro t h h0 hlt hseg
    have hc : 0 ≤ index ∧ index < (ctx.segments.length : Int) := ⟨h0, hlt⟩
    simp only [getTextSegment, whisper_full_get_segment_text, if_neg h,
      if_pos hc, hseg]
    rfl

/-- Witness for C2 at concrete inputs: zero handle, out-of-range index,
null text pointer, and a real segment. -/
theorem getTextSegment_cases_witness :
    (getTextSegment 0 testCtxNull 0).1 = "" ∧
    (getTextSegment 1 testCtxNull 5).1 = "" ∧
    (getTextSegment 1 testCtxNull 1).1 = "" ∧
    (getTextSegment 1 testCtxNull 0).1 = "hello" := by
  refine ⟨?_, ?_, ?_, ?_⟩
  · rw [(getTextSegment_cases 0 testCtxNull 0).1 rfl]
  · exact (getTextSegment_cases 1 testCtxNull 5).2.1 (by decide) (by decide)
  · exact (getTextSegment_cases 1 testCtxNull 1).2.2.1 (by decide) (by decide)
      (by decide) (by decide)
  · exact (getTextSegment_cases 1 testCtxNull 0).2.2.2 "hello" (by decide)
      (by decide) (by decide) (by decide)

/-! ### C8: primary and legacy parameter structs -/

/-- C8: the parameter struct of the primary transcription entry point and
the one of the legacy one-shot path agree on every field except the thread
count: greedy sampling, all printing disabled, translation disabled,
language "en", offset and duration 0, multi-segment allowed, token budget 0,
audio context 0, and every remaining engine-default field; the thread count
is the caller-supplied value in the primary path and 4 in the legacy path. -/
theorem params_agree (d : WhisperFullParams) (numThreads : Int) :
    primaryParams d numThreads = { legacyParams d with n_threads := numThreads } ∧
    (primaryParams d numThreads).n_threads = numThreads ∧
    (legacyParams d).n_threads = 4 ∧
    (primaryParams d numThreads).strategy = .greedy ∧
    (primaryParams d numThreads).print_progress = false ∧
    (primaryParams d numThreads).print_special = false ∧
    (primaryParams d numThreads).print_realtime = false ∧
    (primaryParams d numThreads).print_timestamps = false ∧
    (primaryParams d numThreads).translate = false ∧
    (primaryParams d numThreads).language = "en" ∧
    (primaryParams d numThreads).offset_ms = 0 ∧
    (primaryParams d numThreads).duration_ms = 0 ∧
    (primaryParams d numThreads).single_segment = false ∧
    (primaryParams d numThreads).max_tokens = 0 ∧
    (primaryParams d numThreads).audio_ctx = 0 ∧
    (primaryParams d numThreads).rest = d.rest := by
  refine ⟨rfl, rfl, rfl, rfl, rfl, rfl, rfl, rfl, rfl, rfl, rfl, rfl, rfl,
    rfl, rfl, rfl⟩

/-! ### C9: the primary path leaves the audio array unchanged -/

/-- C9: for every nonzero handle and caller-provided sample array, the
primary transcription call leaves the Java array contents unchanged and
releases the native copy with JNI_ABORT (no copy-back), for every engine
(hence whether the engine call succeeds or returns a nonzero status). -/
theorem fullTranscribe_readonly (E : WhisperEngine)
    (contextPtr numThreads : Int) (audioData : List ℚ) (ctx : WhisperContext)
    (h : contextPtr ≠ 0) :
    (fullTranscribe E contextPtr numThreads audioData ctx).audio = audioData ∧
    (fullTranscribe E contextPtr numThreads audioData ctx).trace =
      [.getJavaArray, .engineFull, .releaseJavaArray .abort] := by
  constructor <;> simp [fullTranscribe, h, releaseFloatArrayElements]

/-- Witness for C9 at a concrete engine, handle and array. -/
theorem fullTranscribe_readonly_witness :
    (fullTranscribe testEngine 1 4 [1/2] testCtx).audio = [1/2] ∧
    (fullTranscribe testEngine 1 4 [1/2] testCtx).trace =
      [.getJavaArray, .engineFull, .releaseJavaArray .abort] :=
  fullTranscribe_readonly testEngine 1 4 [1/2] testCtx (by decide)

/-! ### C5: the fixed-offset PCM reader -/

/-- A decoded int16 LE value lies in the signed 16-bit range. -/
theorem sint16LE_bounds (lo hi : Fin 256) :
    -32768 ≤ sint16LE lo hi ∧ sint16LE lo hi ≤ 32767 := by
  have hlo := lo.isLt
  have hhi := hi.isLt
  simp only [sint16LE]
  split <;> omega

/-- The sample loop produces one sample per byte pair, discarding a
trailing lone byte. -/
theorem pcmSamples_length (l : List (Fin 256)) :
    (pcmSamples l).length = l.length / 2 := by
  induction l using pcmSamples.induct with
  | case1 lo hi tail ih =>
    rw [pcmSamples]
    simp only [List.length_cons, ih]
    omega
  | case2 l h =>
    rcases l with _ | ⟨x, _ | ⟨y, tail⟩⟩
    · rw [pcmSamples.eq_def]
      simp
    · rw [pcmSamples.eq_def]
      simp
    · exact absurd rfl (h x y tail)

/-- Each sample of the loop is in the normalized range. -/
theorem pcmSamples_mem (l : List (Fin 256)) (q : ℚ) (hq : q ∈ pcmSamples l) :
    -1 ≤ q ∧ q ≤ 32767 / 32768 := by
  induction l using pcmSamples.induct with
  | case1 lo hi tail ih =>
    rw [pcmSamples] at hq
    rcases List.mem_cons.mp hq with hq | hq
    · subst hq
      obtain ⟨hb1, hb2⟩ := sint16LE_bounds lo hi
      have h1 : (-32768 : ℚ) ≤ (sint16LE lo hi : ℚ) := by exact_mod_cast hb1
      have h2 : (sint16LE lo hi : ℚ) ≤ 32767 := by exact_mod_cast hb2
      constructor <;> linarith
    · exact ih hq
  | case2 l h =>
    exfalso
    rcases l with _ | ⟨x, _ | ⟨y, tail⟩⟩
    · rw [pcmSamples.eq_def] at hq
      simp at hq
    · rw [pcmSamples.eq_def] at hq
      simp at hq
    · exact h x y tail rfl

/-- The i-th sample of the loop is the decoded byte pair at offset 2i. -/
theorem pcmSamples_get (l : List (Fin 256)) (i : Nat) (lo hi : Fin 256)
    (h1 : l.get? (2 * i) = some lo) (h2 : l.get? (2 * i + 1) = some hi) :
    (pcmSamples l).get? i = some ((sint16LE lo hi : ℚ) / 32768) := by
  induction l using pcmSamples.induct generalizing i with
  | case1 a b tail ih =>
    cases i with
    | zero =>
      simp at h1 h2
      subst h1
      subst h2
      simp [pcmSamples]
    | succ j =>
      have e1 : 2 * (j + 1) = 2 * j + 1 + 1 := by ring
      have e2 : 2 * (j + 1) + 1 = 2 * j + 1 + 1 + 1 := by ring
      rw [e1] at h1
      rw [e2] at h2
      simp only [List.get?_cons_succ] at h1 h2
      rw [pcmSamples]
      simp only [List.get?_cons_succ]
      exact ih j h1 h2
  | case2 l h =>
    exfalso
    rcases l with _ | ⟨x, _ | ⟨y, tail⟩⟩
    · simp at h1
    · rcases i with _ | j
      · simp at h2
      · have e : 2 * (j + 1) = 2 * j + 1 + 1 := by ring
        have hn : [x].get? (2 * (j + 1)) = none := by rw [e]; rfl
        rw [hn] at h1
        simp at h1
    · exact h x y tail rfl

/-- C5: for a readable file of b bytes, the PCM reader yields
(b - 44) / 2 samples (natural subtraction and division, i.e.
max(0, floor((b - 44) / 2))); the i-th sample is the signed 16-bit
little-endian integer at byte offset 44 + 2i divided by 32768; every sample
lies in [-1, 32767/32768]; an unopenable file or one of fewer than 44 bytes
yields the empty sequence; a trailing odd byte is discarded by the sample
count. -/
theorem read_wav_spec (fs : FileSystem) (fname : String) :
    (fs fname = none → (read_wav fs fname).1 = []) ∧
    (∀ bytes, fs fname = some bytes →
      (read_wav fs fname).1.length = (bytes.length - 44) / 2 ∧
      (read_wav fs fname).1.length = ((bytes.length : Int) - 44).toNat / 2 ∧
      (∀ i lo hi, bytes.get? (44 + 2 * i) = some lo →
        bytes.get? (44 + 2 * i + 1) = some hi →
        (read_wav fs fname).1.get? i =
          some ((sint16LE lo hi : ℚ) / 32768)) ∧
      (∀ q ∈ (read_wav fs fname).1, -1 ≤ q ∧ q ≤ 32767 / 32768) ∧
      (bytes.length < 44 → (read_wav fs fname).1 = [])) := by
  constructor
  · intro h
    simp [read_wav, h]
  · intro bytes hbytes
    have hr : (read_wav fs fname).1 = pcmSamples (bytes.drop 44) := by
      simp [read_wav, hbytes]
    refine ⟨?_, ?_, ?_, ?_, ?_⟩
    · rw [hr, pcmSamples_length, List.length_drop]
    · rw [hr, pcmSamples_length, List.length_drop]
      omega
    · intro i lo hi h1 h2
      rw [hr]
      refine pcmSamples_get _ i lo hi ?_ ?_
      · rw [List.get?_drop]
        exact h1
      · rw [List.get?_drop]
        have e : 44 + (2 * i + 1) = 44 + 2 * i + 1 := by omega
        rw [e]
        exact h2
    · intro q hq
      rw [hr] at hq
      exact pcmSamples_mem _ q hq
    · intro hshort
      rw [hr, List.drop_eq_nil_of_le (by omega)]
      rfl

/-- Witness for C5 on a concrete 48-byte file: two samples, the first
decoded from bytes (5, 0). -/
theorem read_wav_spec_witness :
    testFs "a.wav" = some testBytes ∧
    (read_wav testFs "a.wav").1.length = 2 ∧
    (read_wav testFs "a.wav").1.get? 0 =
      some ((sint16LE 5 0 : ℚ) / 32768) ∧
    (read_wav emptyFs "a.wav").1 = [] := by
  refine ⟨rfl, ?_, ?_, ?_⟩
  · have h := ((read_wav_spec testFs "a.wav").2 testBytes rfl).1
    have e : (testBytes.length - 44) / 2 = 2 := by decide
    rw [h, e]
  · exact ((read_wav_spec testFs "a.wav").2 testBytes rfl).2.2.1 0 5 0
      (by decide) (by decide)
  · exact (read_wav_spec emptyFs "a.wav").1 rfl

/-! ### C3 and C4: legacy-path error sentinels and context release -/

/-- C3: the legacy one-shot transcribe returns one of three pairwise
distinct sentinel strings, one per failure class, checked in order: the
model sentinel when context creation fails (and then the audio file is
never opened), the audio sentinel when the decoded sample sequence is
empty (regardless of the engine transcription oracle), and the processing
sentinel when the engine returns a nonzero status. -/
theorem nativeTranscribe_error_sentinels (E : WhisperEngine)
    (fs : FileSystem) (audioPath modelPath : String) :
    (errModel ≠ errAudio ∧ errModel ≠ errProcess ∧ errAudio ≠ errProcess) ∧
    (E.initFromFile modelPath = none →
      nativeTranscribe E fs audioPath modelPath =
        (errModel, [.engineInitFromFile modelPath]) ∧
      ∀ p, Event.fileOpen p ∉ (nativeTranscribe E fs audioPath modelPath).2) ∧
    (∀ ctx, E.initFromFile modelPath = some ctx →
      (read_wav fs audioPath).1 = [] →
      (nativeTranscribe E fs audioPath modelPath).1 = errAudio) ∧
    (∀ ctx, E.initFromFile modelPath = some ctx →
      (read_wav fs audioPath).1 ≠ [] →
      (E.full ctx (legacyParams E.defaults) (read_wav fs audioPath).1).1 ≠ 0 →
      (nativeTranscribe E fs audioPath modelPath).1 = errProcess) := by
  refine ⟨⟨by decide, by decide, by decide⟩, ?_, ?_, ?_⟩
  · intro h
    constructor
    · simp [nativeTranscribe, h]
    · intro p
      simp [nativeTranscribe, h]
  · intro ctx hctx hemp
    simp [nativeTranscribe, hctx, hemp]
  · intro ctx hctx hne hst
    have hemp : (read_wav fs audioPath).1.isEmpty = false := by
      cases hl : (read_wav fs audioPath).1 with
      | nil => exact absurd hl hne
      | cons a l => rfl
    simp [nativeTranscribe, hctx, hemp, hst]

/-- Witness for C3: the three failure classes at concrete engines and
file systems, plus sentinel distinctness. -/
theorem nativeTranscribe_error_sentinels_witness :
    nativeTranscribe testEngine testFs "a.wav" "nope.bin" =
      (errModel, [.engineInitFromFile "nope.bin"]) ∧
    (nativeTranscribe testEngine emptyFs "a.wav" "model.bin").1 = errAudio ∧
    (nativeTranscribe failFullEngine testFs "a.wav" "model.bin").1 =
      errProcess ∧
    (errModel ≠ errAudio ∧ errModel ≠ errProcess ∧ errAudio ≠ errProcess) := by
  refine ⟨((nativeTranscribe_error_sentinels testEngine testFs "a.wav"
      "nope.bin").2.1 (by decide)).1, ?_, ?_, ?_⟩
  · exact (nativeTranscribe_error_sentinels testEngine emptyFs "a.wav"
      "model.bin").2.2.1 testCtx (by decide) (by decide)
  · exact (nativeTranscribe_error_sentinels failFullEngine testFs "a.wav"
      "model.bin").2.2.2 testCtx (by decide) (by decide) (by decide)
  · exact (nativeTranscribe_error_sentinels testEngine testFs "a.wav"
      "nope.bin").1

/-- C4: the legacy one-shot transcribe frees the context exactly once on
every path where context creation succeeded (empty audio, nonzero engine
status, success), and never when creation failed. -/
theorem nativeTranscribe_free_once (E : WhisperEngine) (fs : FileSystem)
    (audioPath modelPath : String) :
    (E.initFromFile modelPath = none →
      (nativeTranscribe E fs audioPath modelPath).2.count .engineFree = 0) ∧
    (E.initFromFile modelPath ≠ none →
      (nativeTranscribe E fs audioPath modelPath).2.count .engineFree = 1) := by
  constructor
  · intro h
    simp [nativeTranscribe, h]
  · intro h
    rcases hE : E.initFromFile modelPath with _ | ctx
    · exact absurd hE h
    · have htr := read_wav_trace fs audioPath
      by_cases hemp : (read_wav fs audioPath).1.isEmpty
      · simp [nativeTranscribe, hE, hemp, htr, List.count_cons,
          List.count_append]
      · by_cases hst :
          (E.full ctx (legacyParams E.defaults) (read_wav fs audioPath).1).1 ≠ 0
        · simp [nativeTranscribe, hE, hemp, hst, htr, List.count_cons,
            List.count_append]
        · simp [nativeTranscribe, hE, hemp, hst, htr, List.count_cons,
            List.count_append]

/-- Witness for C4: free counts at a failing model path and on the three
post-creation paths. -/
theorem nativeTranscribe_free_once_witness :
    (nativeTranscribe testEngine testFs "a.wav" "nope.bin").2.count
      .engineFree = 0 ∧
    (nativeTranscribe testEngine testFs "a.wav" "model.bin").2.count
      .engineFree = 1 ∧
    (nativeTranscribe failFullEngine testFs "a.wav" "model.bin").2.count
      .engineFree = 1 ∧
    (nativeTranscribe testEngine emptyFs "a.wav" "model.bin").2.count
      .engineFree = 1 :=
  ⟨(nativeTranscribe_free_once testEngine testFs "a.wav" "nope.bin").1
      (by decide),
   (nativeTranscribe_free_once testEngine testFs "a.wav" "model.bin").2
      (by decide),
   (nativeTranscribe_free_once failFullEngine testFs "a.wav" "model.bin").2
      (by decide),
   (nativeTranscribe_free_once testEngine emptyFs "a.wav" "model.bin").2
      (by decide)⟩

/-! ### C7: the success-path transcript -/

/-- Pulling a left factor out of the intercalate accumulator loop. -/
theorem intercalate_go_append (x y s : String) (bs : List String) :
    String.intercalate.go (x ++ y) s bs = x ++ String.intercalate.go y s bs := by
  induction bs generalizing y with
  | nil => rfl
  | cons b bs ih =>
    simp only [String.intercalate.go]
    have e : x ++ y ++ s ++ b = x ++ (y ++ s ++ b) := by
      simp [String.append_assoc]
    rw [e, ih]

/-- The stringstream loop over non-null segment texts is the
space-intercalation of the texts. -/
theorem joinSegments_map_some (texts : List String) :
    joinSegments (texts.map some) = String.intercalate " " texts := by
  induction texts with
  | nil => rfl
  | cons t ts ih =>
    cases ts with
    | nil => rfl
    | cons u us =>
      have h1 : joinSegments ((t :: u :: us).map some) =
          t ++ " " ++ joinSegments ((u :: us).map some) := rfl
      rw [h1, ih]
      simp only [String.intercalate, String.intercalate.go]
      exact (intercalate_go_append (t ++ " ") u " " us).symm

/-- C7: on the legacy success path, a transcription producing segments with
non-null texts t_0 .. t_(n-1) returns exactly those texts joined with one
space between consecutive segments, and the empty string (not an error
sentinel) when n = 0. -/
theorem nativeTranscribe_success_join (E : WhisperEngine) (fs : FileSystem)
    (audioPath modelPath : String) (ctx ctx2 : WhisperContext)
    (texts : List String)
    (h1 : E.initFromFile modelPath = some ctx)
    (h2 : (read_wav fs audioPath).1 ≠ [])
    (h3 : E.full ctx (legacyParams E.defaults) (read_wav fs audioPath).1 =
      (0, ctx2))
    (h4 : ctx2.segments = texts.map some) :
    (nativeTranscribe E fs audioPath modelPath).1 =
      String.intercalate " " texts ∧
    (texts = [] →
      (nativeTranscribe E fs audioPath modelPath).1 = "" ∧
      (nativeTranscribe E fs audioPath modelPath).1 ≠ errModel ∧
      (nativeTranscribe E fs audioPath modelPath).1 ≠ errAudio ∧
      (nativeTranscribe E fs audioPath modelPath).1 ≠ errProcess) := by
  have hemp : (read_wav fs audioPath).1.isEmpty = false := by
    cases hl : (read_wav fs audioPath).1 with
    | nil => exact absurd hl h2
    | cons a l => rfl
  have key : (nativeTranscribe E fs audioPath modelPath).1 =
      joinSegments ctx2.segments := by
    simp [nativeTranscribe, h1, hemp, h3]
  rw [key, h4, joinSegments_map_some]
  refine ⟨rfl, fun ht => ?_⟩
  subst ht
  exact ⟨rfl, by decide, by decide, by decide⟩

/-- Witness for C7: the concrete engine produces segments "hello" and
"world" and the legacy path returns "hello world". -/
theorem nativeTranscribe_success_join_witness :
    (nativeTranscribe testEngine testFs "a.wav" "model.bin").1 =
      String.intercalate " " ["hello", "world"] ∧
    (nativeTranscribe testEngine testFs "a.wav" "model.bin").1 =
      "hello world" := by
  have h := nativeTranscribe_success_join testEngine testFs "a.wav"
    "model.bin" testCtx testCtxDone ["hello", "world"] (by decide)
    (by decide) (by decide) (by decide)
  exact ⟨h.1, h.1.trans (by decide)⟩

/-! ### C10: asset lifecycle in context creation from an asset -/

/-- C10: whenever the asset open succeeds, `initContextFromAsset` closes
the asset exactly once before returning, both on the failure path (null
buffer or non-positive length, which yields the zero handle) and around the
engine buffer load (whether it succeeds or fails); the trace shows the only
buffer use happens before the close. -/
theorem initContextFromAsset_closes_once (E : WhisperEngine)
    (m : AAssetManager) (assetPath : String) (asset : AAsset)
    (hopen : m.openAsset assetPath = some asset) :
    ((initContextFromAsset E (some m) assetPath).2.count .assetClose = 1) ∧
    (asset.buffer = none ∨ asset.length ≤ 0 →
      initContextFromAsset E (some m) assetPath =
        (none, [.assetOpen assetPath, .assetClose])) ∧
    (∀ buf, asset.buffer = some buf → 0 < asset.length →
      initContextFromAsset E (some m) assetPath =
        (E.initFromBuffer buf asset.length,
          [.assetOpen assetPath, .engineInitFromBuffer, .assetClose])) := by
  refine ⟨?_, ?_, ?_⟩
  · rcases hbuf : asset.buffer with _ | buf
    · simp [initContextFromAsset, hopen, hbuf]
    · by_cases hlen : asset.length ≤ 0
      · simp [initContextFromAsset, hopen, hbuf, hlen]
      · simp [initContextFromAsset, hopen, hbuf, hlen]
  · intro hfail
    rcases hbuf : asset.buffer with _ | buf
    · simp [initContextFromAsset, hopen, hbuf]
    · have hlen : asset.length ≤ 0 := by
        rcases hfail with hf | hf
        · rw [hbuf] at hf
          exact absurd hf (by simp)
        · exact hf
      simp [initContextFromAsset, hopen, hbuf, hlen]
  · intro buf hbuf hlen
    have hlen2 : ¬asset.length ≤ 0 := by omega
    simp [initContextFromAsset, hopen, hbuf, hlen2]

/-- Witness for C10: close counts and traces at a concrete asset manager,
for a good asset and for one with a null buffer. -/
theorem initContextFromAsset_closes_once_witness :
    (initContextFromAsset testEngine (some testMgr) "good.bin").2.count
      .assetClose = 1 ∧
    (initContextFromAsset testEngine (some testMgr) "bad.bin").2.count
      .assetClose = 1 ∧
    initContextFromAsset testEngine (some testMgr) "bad.bin" =
      (none, [.assetOpen "bad.bin", .assetClose]) ∧
    initContextFromAsset testEngine (some testMgr) "good.bin" =
      (testEngine.initFromBuffer [1, 2, 3, 4] 4,
        [.assetOpen "good.bin", .engineInitFromBuffer, .assetClose]) :=
  ⟨(initContextFromAsset_closes_once testEngine testMgr "good.bin"
      testAssetOk (by decide)).1,
   (initContextFromAsset_closes_once testEngine testMgr "bad.bin"
      testAssetBad (by decide)).1,
   (initContextFromAsset_closes_once testEngine testMgr "bad.bin"
      testAssetBad (by decide)).2.1 (Or.inl (by decide)),
   (initContextFromAsset_closes_once testEngine testMgr "good.bin"
      testAssetOk (by decide)).2.2 [1, 2, 3, 4] (by decide) (by decide)⟩

/-! ### C6: UTF-8 round-trip across the boundary -/

/-- Decoding an encoded code point peels it off the front of the byte
stream. -/
theorem utf8Decode_encode (c : Nat) (hc : c < 0x110000) (tail : List Nat) :
    utf8Decode (utf8EncodeCodePoint c ++ tail) =
      (utf8Decode tail).map (c :: ·) := by
  by_cases h1 : c < 0x80
  · simp only [utf8EncodeCodePoint, if_pos h1, List.cons_append,
      List.nil_append]
    simp only [utf8Decode, utf8DecodeAux]
    rw [if_pos h1]
  · by_cases h2 : c < 0x800
    · simp only [utf8EncodeCodePoint, if_neg h1, if_pos h2, List.cons_append,
        List.nil_append]
      simp only [utf8Decode, utf8DecodeAux]
      rw [if_neg (by omega), if_neg (by omega), if_pos (by omega),
        if_pos (by constructor <;> omega)]
      have e : (0xC0 + c / 64 - 0xC0) * 64 + (0x80 + c % 64 - 0x80) = c := by
        omega
      simp only [e]
    · by_cases h3 : c < 0x10000
      · simp only [utf8EncodeCodePoint, if_neg h1, if_neg h2, if_pos h3,
          List.cons_append, List.nil_append]
        simp only [utf8Decode, utf8DecodeAux]
        rw [if_neg (by omega), if_neg (by omega), if_neg (by omega),
          if_pos (by omega), if_pos (by constructor <;> omega),
          if_pos (by constructor <;> omega)]
        have e : ((0xE0 + c / 4096 - 0xE0) * 64 +
            (0x80 + c / 64 % 64 - 0x80)) * 64 + (0x80 + c % 64 - 0x80) = c := by
          omega
        simp only [e]
      · simp only [utf8EncodeCodePoint, if_neg h1, if_neg h2, if_neg h3,
          List.cons_append, List.nil_append]
        simp only [utf8Decode, utf8DecodeAux]
        rw [if_neg (by omega), if_neg (by omega), if_neg (by omega),
          if_neg (by omega), if_pos (by omega),
          if_pos (by constructor <;> omega),
          if_pos (by constructor <;> omega),
          if_pos (by constructor <;> omega)]
        have e : (((0xF0 + c / 262144 - 0xF0) * 64 +
            (0x80 + c / 4096 % 64 - 0x80)) * 64 +
            (0x80 + c / 64 % 64 - 0x80)) * 64 + (0x80 + c % 64 - 0x80) = c := by
          omega
        simp only [e]

/-- Decoding inverts encoding on every sequence of code points below
0x110000. -/
theorem utf8_roundtrip_core (cps : List Nat) (h : ∀ c ∈ cps, c < 0x110000) :
    utf8Decode (utf8Encode cps) = some cps := by
  induction cps with
  | nil => rfl
  | cons c cs ih =>
    have hc : c < 0x110000 := h c (List.mem_cons_self c cs)
    have hcs : ∀ x ∈ cs, x < 0x110000 := fun x hx =>
      h x (List.mem_cons_of_mem c hx)
    have e : utf8Encode (c :: cs) = utf8EncodeCodePoint c ++ utf8Encode cs := by
      simp [utf8Encode]
    rw [e, utf8Decode_encode c hc, ih hcs]
    rfl

/-- C6: the inbound conversion extracts UTF-8 bytes (never a platform
default encoding), and every string of Unicode scalar values - multi-byte
and non-BMP four-byte characters included - round-trips unchanged through
the inbound conversion followed by the outbound string construction. -/
theorem utf8_roundtrip (js : List Nat) (h : ∀ c ∈ js, UnicodeScalar c) :
    jstring2string js = utf8Encode js ∧
    newStringUTF (jstring2string js) = some js :=
  ⟨rfl, utf8_roundtrip_core js (fun c hc => (h c hc).1)⟩

/-- Witness for C6: a string with a 1-byte, a 3-byte and a non-BMP 4-byte
character round-trips; the 4-byte character has its standard UTF-8 form. -/
theorem utf8_roundtrip_witness :
    (∀ c ∈ [0x41, 0x20AC, 0x1F600], UnicodeScalar c) ∧
    newStringUTF (jstring2string [0x41, 0x20AC, 0x1F600]) =
      some [0x41, 0x20AC, 0x1F600] ∧
    jstring2string [0x1F600] = [0xF0, 0x9F, 0x98, 0x80] :=
  ⟨by decide, (utf8_roundtrip [0x41, 0x20AC, 0x1F600] (by decide)).2,
    by decide⟩

end WhisperJni
